import Mathlib

/-!
Verification of the Firehose.space ranking and scoring subsystem.

The definitions below are a shallow embedding of the Cloudflare Worker
backend (src/worker.ts) together with its SQLite schema (schema.sql):
the vote ledger and score aggregator (handleVotePost / handleVoteComment),
the click tracker (handleTrackClick), the rate limiter (checkRateLimit),
the magic-link login handler (handleLogin), the leaderboard aggregator
(handleGetLeaderboard) and the hotness recalculator (handleUpdateHotness).
Database tables are lists of rows; the KV cache is a list of entries with
an absolute expiry; SQL aggregates become list filters, maps and sums.
Timestamps are plain integers carrying whatever unit the corresponding
source expression produces (Date.now() yields milliseconds, the schema
default unixepoch() yields seconds).
-/

namespace Firehose

/-- A row of the `votes` table (schema.sql): one vote by a user on a post
or comment, with a direction.  The table has a UNIQUE constraint on
(user_id, entity_type, entity_id). -/
structure Vote where
  user_id : String
  entity_type : String
  entity_id : String
  vote_type : String
deriving DecidableEq

/-- A row of the `posts` table, restricted to the columns the claims touch. -/
structure PostRow where
  id : String
  type : String
  author_id : String
  score : Int
  clicks : Int
  comments_count : Int
  created_at : Int
deriving DecidableEq

/-- A row of the `comments` table, restricted to the columns the claims touch. -/
structure CommentRow where
  id : String
  post_id : String
  user_id : String
  score : Int
  created_at : Int
deriving DecidableEq

/-- A row of the `users` table (only the id matters for the leaderboard score). -/
structure UserRow where
  id : String
deriving DecidableEq

/-- One key of the Cloudflare KV cache used for rate limiting: a counter
plus the absolute time at which the key expires (put with expirationTtl w
at time t sets expiry t + w; an expired key reads as absent). -/
structure CacheEntry where
  key : String
  count : Nat
  expires_at : Int
deriving DecidableEq

/-- The mutable state a vote request can touch: the three tables and the
rate-limit cache. -/
structure WorkerState where
  votes : List Vote
  posts : List PostRow
  comments : List CommentRow
  cache : List CacheEntry
deriving DecidableEq

/-- KV read at time `now`: a stored key is visible only before its expiry. -/
def kvGet (cache : List CacheEntry) (key : String) (now : Int) : Option Nat :=
  match cache.find? (fun e => e.key == key) with
  | some e => if now < e.expires_at then some e.count else none
  | none => none

/-- KV put with expirationTtl: replaces the key and sets expiry now + ttl. -/
def kvPut (cache : List CacheEntry) (key : String) (count : Nat) (ttl now : Int) :
    List CacheEntry :=
  cache.filter (fun e => !(e.key == key)) ++ [⟨key, count, now + ttl⟩]

/-- worker.ts checkRateLimit: read the counter (0 if absent or expired);
if it has reached `limit`, refuse without writing; otherwise increment and
store it with expirationTtl `window`. -/
def checkRateLimit (cache : List CacheEntry) (key : String) (limit : Nat)
    (window now : Int) : Bool × List CacheEntry :=
  let count := (kvGet cache key now).getD 0
  if limit ≤ count then (false, cache)
  else (true, kvPut cache key (count + 1) window now)

/-- Number of 'up' votes recorded for an entity, as in the score-recompute
subquery of handleVotePost / handleVoteComment. -/
def countUp (vs : List Vote) (ty eid : String) : Int :=
  ((vs.filter (fun v => v.entity_type == ty && v.entity_id == eid &&
      v.vote_type == "up")).length : Int)

/-- Number of 'down' votes recorded for an entity. -/
def countDown (vs : List Vote) (ty eid : String) : Int :=
  ((vs.filter (fun v => v.entity_type == ty && v.entity_id == eid &&
      v.vote_type == "down")).length : Int)

/-- The recomputed score: count(up) - count(down) over all votes for the
entity. -/
def tallyScore (vs : List Vote) (ty eid : String) : Int :=
  countUp vs ty eid - countDown vs ty eid

/-- INSERT OR REPLACE INTO votes: the UNIQUE(user_id, entity_type,
entity_id) constraint deletes any conflicting row, then the new row is
inserted. -/
def upsertVote (vs : List Vote) (u ty eid dir : String) : List Vote :=
  vs.filter (fun v => !(v.user_id == u && v.entity_type == ty &&
      v.entity_id == eid)) ++ [⟨u, ty, eid, dir⟩]

/-- Outcome of a vote request, mirroring the HTTP statuses of the handlers
(200 with the new score, 401, 400, 404, 429). -/
inductive VoteOutcome where
  | success (newScore : Int)
  | errAuth
  | errInvalid
  | errNotFound
  | errRateLimit
deriving DecidableEq

/-- worker.ts handleVotePost: require a user; validate vote_type against
['up','down']; require the post to exist; consume the vote rate limit
(100 per 3600s per user); then upsert the vote row, recompute the post
score from the whole ledger and persist it. -/
def handleVotePost (user : Option String) (vt : String) (postId : String)
    (now : Int) (st : WorkerState) : VoteOutcome × WorkerState :=
  match user with
  | none => (VoteOutcome.errAuth, st)
  | some uid =>
    if !(vt == "up" || vt == "down") then (VoteOutcome.errInvalid, st)
    else if (st.posts.find? (fun p => p.id == postId)).isNone then
      (VoteOutcome.errNotFound, st)
    else
      let rl := checkRateLimit st.cache ("vote_limit:" ++ uid) 100 3600 now
      if !rl.1 then (VoteOutcome.errRateLimit, st)
      else
        let votes' := upsertVote st.votes uid "post" postId vt
        let newScore := tallyScore votes' "post" postId
        (VoteOutcome.success newScore,
          { st with
              votes := votes'
              posts := st.posts.map (fun p =>
                if p.id == postId then { p with score := newScore } else p)
              cache := rl.2 })

/-- worker.ts handleVoteComment: the same pipeline against the comments
table and entity_type 'comment'. -/
def handleVoteComment (user : Option String) (vt : String) (commentId : String)
    (now : Int) (st : WorkerState) : VoteOutcome × WorkerState :=
  match user with
  | none => (VoteOutcome.errAuth, st)
  | some uid =>
    if !(vt == "up" || vt == "down") then (VoteOutcome.errInvalid, st)
    else if (st.comments.find? (fun c => c.id == commentId)).isNone then
      (VoteOutcome.errNotFound, st)
    else
      let rl := checkRateLimit st.cache ("vote_limit:" ++ uid) 100 3600 now
      if !rl.1 then (VoteOutcome.errRateLimit, st)
      else
        let votes' := upsertVote st.votes uid "comment" commentId vt
        let newScore := tallyScore votes' "comment" commentId
        (VoteOutcome.success newScore,
          { st with
              votes := votes'
              comments := st.comments.map (fun c =>
                if c.id == commentId then { c with score := newScore } else c)
              cache := rl.2 })

/-- Outcome of a click-tracking request (200 or 404). -/
inductive ClickOutcome where
  | success
  | errNotFound
deriving DecidableEq

/-- worker.ts handleTrackClick: SELECT the post WHERE id = ? AND
type = "link"; if absent answer 404 and change nothing, otherwise
UPDATE posts SET clicks = clicks + 1 WHERE id = ?. -/
def handleTrackClick (postId : String) (posts : List PostRow) :
    ClickOutcome × List PostRow :=
  if (posts.find? (fun p => p.id == postId && p.type == "link")).isNone then
    (ClickOutcome.errNotFound, posts)
  else
    (ClickOutcome.success, posts.map (fun p =>
      if p.id == postId then { p with clicks := p.clicks + 1 } else p))

/-- A row of the `magic_tokens` table created by handleLogin. -/
structure MagicToken where
  email : String
  token : String
  expires_at : Int
deriving DecidableEq

/-- worker.ts handleLogin: require the email to contain an '@' character
(email.includes in the source, expressed here over the character list),
then insert a magic token expiring in 15 minutes and answer success.  The
handler consults no counter and performs no rate limiting before the
insert. -/
def handleLogin (email : String) (tok : String) (now : Int)
    (tokens : List MagicToken) : Bool × List MagicToken :=
  if !(email.toList.contains '@') then (false, tokens)
  else (true, tokens ++ [⟨email, tok, now + 15 * 60 * 1000⟩])

/-- Run a sequence of login requests for one email, threading the
magic_tokens table; each request carries a fresh token and a time. -/
def runLogins (email : String) :
    List MagicToken → List (String × Int) → List Bool × List MagicToken
  | tokens, [] => ([], tokens)
  | tokens, r :: rest =>
    let step := handleLogin email r.1 r.2 tokens
    let tail := runLogins email step.2 rest
    (step.1 :: tail.1, tail.2)

/-- Run a sequence of rate-limit checks on one key, threading the cache;
the list holds the time of each call. -/
def runRateLimit (key : String) (limit : Nat) (window : Int) :
    List CacheEntry → List Int → List Bool × List CacheEntry
  | cache, [] => ([], cache)
  | cache, t :: ts =>
    let step := checkRateLimit cache key limit window t
    let tail := runRateLimit key limit window step.2 ts
    (step.1 :: tail.1, tail.2)

/-- One leaderboard row: the per-author aggregates computed by the
author_stats CTE of handleGetLeaderboard. -/
structure AuthorStat where
  id : String
  post_upvotes : Int
  comment_upvotes : Int
  total_clicks : Int
  total_score : ℚ
deriving DecidableEq

/-- The weekly time filter of handleGetLeaderboard on a post subquery:
present only when period = 'weekly', and then p.created_at > weekAgo with
weekAgo = Date.now() - 7*24*60*60*1000. -/
def postWindowOk (period : String) (now : Int) (p : PostRow) : Bool :=
  period != "weekly" || decide (now - 7 * 24 * 60 * 60 * 1000 < p.created_at)

/-- The weekly time filter on a comment subquery: c.created_at > weekAgo. -/
def commentWindowOk (period : String) (now : Int) (c : CommentRow) : Bool :=
  period != "weekly" || decide (now - 7 * 24 * 60 * 60 * 1000 < c.created_at)

/-- The post_upvotes subquery: over the author's (period-filtered) posts,
count the joined votes with entity_type 'post' and vote_type 'up'. -/
def postUpvotesOf (votes : List Vote) (posts : List PostRow) (period : String)
    (now : Int) (uid : String) : Int :=
  ((posts.filter (fun p => p.author_id == uid && postWindowOk period now p)).map
      (fun p => countUp votes "post" p.id)).sum

/-- The comment_upvotes subquery: over the author's (period-filtered)
comments, count the joined votes with entity_type 'comment', 'up'. -/
def commentUpvotesOf (votes : List Vote) (comments : List CommentRow)
    (period : String) (now : Int) (uid : String) : Int :=
  ((comments.filter (fun c => c.user_id == uid && commentWindowOk period now c)).map
      (fun c => countUp votes "comment" c.id)).sum

/-- The click_stats subquery: SUM(p.clicks) over the author's
(period-filtered) posts WHERE p.type = 'link'. -/
def totalClicksOf (posts : List PostRow) (period : String) (now : Int)
    (uid : String) : Int :=
  ((posts.filter (fun p => p.author_id == uid && p.type == "link" &&
      postWindowOk period now p)).map (fun p => p.clicks)).sum

/-- One author's row of the author_stats CTE:
total_score = post_upvotes + 0.5 * comment_upvotes + total_clicks. -/
def authorStatOf (votes : List Vote) (posts : List PostRow)
    (comments : List CommentRow) (period : String) (now : Int)
    (uid : String) : AuthorStat :=
  let pu := postUpvotesOf votes posts period now uid
  let cu := commentUpvotesOf votes comments period now uid
  let cl := totalClicksOf posts period now uid
  ⟨uid, pu, cu, cl, (pu : ℚ) + (0.5 : ℚ) * (cu : ℚ) + (cl : ℚ)⟩

/-- worker.ts handleGetLeaderboard: compute author_stats for every user,
keep WHERE total_score > 0, ORDER BY total_score DESC, then apply OFFSET
and LIMIT. -/
def handleGetLeaderboard (period : String) (limit offset : Nat) (now : Int)
    (users : List UserRow) (posts : List PostRow) (comments : List CommentRow)
    (votes : List Vote) : List AuthorStat :=
  (((((users.map (fun u => authorStatOf votes posts comments period now u.id)).filter
      (fun a => decide ((0 : ℚ) < a.total_score))).insertionSort
      (fun a b => b.total_score ≤ a.total_score)).drop offset).take limit)

/-- The SET expression of handleUpdateHotness with its constants w = 0.2,
c = 2, alpha = 1.5 inlined:
(score + 0.2 * comments_count) / ((age_hours + 2) ^ 1.5). -/
noncomputable def hotnessFormula (score comments age_hours : ℝ) : ℝ :=
  (score + 0.2 * comments) / ((age_hours + 2) ^ (1.5 : ℝ))

/-- A row of the `posts` table as seen by the hotness recalculator. -/
structure HotPost where
  score : Int
  comments_count : Int
  created_at : Int
  hotness : ℝ

/-- worker.ts handleUpdateHotness: UPDATE posts SET hotness = (score +
0.2 * comments_count) / POWER((now - created_at) / 3600000.0 + 2, 1.5)
WHERE created_at > now - 7*24*60*60*1000, with now = Date.now() in
milliseconds. -/
noncomputable def handleUpdateHotness (now : Int) (posts : List HotPost) :
    List HotPost :=
  posts.map (fun p =>
    if now - 7 * 24 * 60 * 60 * 1000 < p.created_at then
      { p with hotness := (hotnessFormula (p.score : ℝ) (p.comments_count : ℝ)
          (((now - p.created_at : Int) : ℝ) / 3600000)) }
    else p)

/-- The vote-ledger invariant: at most one vote row per
(user, entity-type, entity-id) triple. -/
def atMostOneVote (vs : List Vote) : Prop :=
  ∀ u ty eid, ((vs.filter (fun v => v.user_id == u && v.entity_type == ty &&
      v.entity_id == eid)).length ≤ 1)

/-- A vote-post request either fails with one of the four error outcomes
leaving the state untouched, or succeeds with the upserted ledger, the
recomputed score written to every matching post row, and the consumed
rate-limit counter. -/
lemma votePost_shape (user : Option String) (vt postId : String) (now : Int)
    (st : WorkerState) :
    (handleVotePost user vt postId now st = (VoteOutcome.errAuth, st)) ∨
    (handleVotePost user vt postId now st = (VoteOutcome.errInvalid, st)) ∨
    (handleVotePost user vt postId now st = (VoteOutcome.errNotFound, st)) ∨
    (handleVotePost user vt postId now st = (VoteOutcome.errRateLimit, st)) ∨
    (∃ uid, user = some uid ∧ (∃ p ∈ st.posts, p.id = postId) ∧
      handleVotePost user vt postId now st =
        (VoteOutcome.success
            (tallyScore (upsertVote st.votes uid "post" postId vt) "post" postId),
         { st with
             votes := upsertVote st.votes uid "post" postId vt
             posts := st.posts.map (fun p =>
               if p.id == postId then
                 { p with score := (tallyScore
                     (upsertVote st.votes uid "post" postId vt) "post" postId) }
               else p)
             cache := (checkRateLimit st.cache ("vote_limit:" ++ uid)
                 100 3600 now).2 })) := by
  cases user with
  | none => exact Or.inl rfl
  | some uid =>
    cases hvt : (vt == "up" || vt == "down") with
    | false =>
      refine Or.inr (Or.inl ?_)
      simp [handleVotePost, hvt]
    | true =>
      cases hfind : st.posts.find? (fun p => p.id == postId) with
      | none =>
        refine Or.inr (Or.inr (Or.inl ?_))
        simp [handleVotePost, hvt, hfind]
      | some q =>
        cases hrl : (checkRateLimit st.cache ("vote_limit:" ++ uid)
            100 3600 now).1 with
        | false =>
          refine Or.inr (Or.inr (Or.inr (Or.inl ?_)))
          simp [handleVotePost, hvt, hfind, hrl]
        | true =>
          refine Or.inr (Or.inr (Or.inr (Or.inr ⟨uid, rfl, ?_, ?_⟩)))
          · have hq := List.find?_some hfind
            exact ⟨q, List.mem_of_find?_eq_some hfind,
              beq_iff_eq.mp (by simpa using hq)⟩
          · simp [handleVotePost, hvt, hfind, hrl]

/-- The comment analogue of votePost_shape. -/
lemma voteComment_shape (user : Option String) (vt commentId : String)
    (now : Int) (st : WorkerState) :
    (handleVoteComment user vt commentId now st = (VoteOutcome.errAuth, st)) ∨
    (handleVoteComment user vt commentId now st = (VoteOutcome.errInvalid, st)) ∨
    (handleVoteComment user vt commentId now st = (VoteOutcome.errNotFound, st)) ∨
    (handleVoteComment user vt commentId now st = (VoteOutcome.errRateLimit, st)) ∨
    (∃ uid, user = some uid ∧ (∃ c ∈ st.comments, c.id = commentId) ∧
      handleVoteComment user vt commentId now st =
        (VoteOutcome.success
            (tallyScore (upsertVote st.votes uid "comment" commentId vt)
              "comment" commentId),
         { st with
             votes := upsertVote st.votes uid "comment" commentId vt
             comments := st.comments.map (fun c =>
               if c.id == commentId then
                 { c with score := (tallyScore
                     (upsertVote st.votes uid "comment" commentId vt)
                     "comment" commentId) }
               else c)
             cache := (checkRateLimit st.cache ("vote_limit:" ++ uid)
                 100 3600 now).2 })) := by
  cases user with
  | none => exact Or.inl rfl
  | some uid =>
    cases hvt : (vt == "up" || vt == "down") with
    | false =>
      refine Or.inr (Or.inl ?_)
      simp [handleVoteComment, hvt]
    | true =>
      cases hfind : st.comments.find? (fun c => c.id == commentId) with
      | none =>
        refine Or.inr (Or.inr (Or.inl ?_))
        simp [handleVoteComment, hvt, hfind]
      | some q =>
        cases hrl : (checkRateLimit st.cache ("vote_limit:" ++ uid)
            100 3600 now).1 with
        | false =>
          refine Or.inr (Or.inr (Or.inr (Or.inl ?_)))
          simp [handleVoteComment, hvt, hfind, hrl]
        | true =>
          refine Or.inr (Or.inr (Or.inr (Or.inr ⟨uid, rfl, ?_, ?_⟩)))
          · have hq := List.find?_some hfind
            exact ⟨q, List.mem_of_find?_eq_some hfind,
              beq_iff_eq.mp (by simpa using hq)⟩
          · simp [handleVoteComment, hvt, hfind, hrl]

/-- The INSERT OR REPLACE upsert preserves the at-most-one-row invariant. -/
lemma atMostOneVote_upsert (vs : List Vote) (u ty eid d : String)
    (h : atMostOneVote vs) : atMostOneVote (upsertVote vs u ty eid d) := by
  intro u' ty' eid'
  unfold upsertVote
  rw [List.filter_append]
  by_cases hnew : ((⟨u, ty, eid, d⟩ : Vote).user_id == u' &&
      (⟨u, ty, eid, d⟩ : Vote).entity_type == ty' &&
      (⟨u, ty, eid, d⟩ : Vote).entity_id == eid') = true
  · have hu : u = u' ∧ ty = ty' ∧ eid = eid' := by
      simpa [Bool.and_eq_true, beq_iff_eq, and_assoc] using hnew
    obtain ⟨rfl, rfl, rfl⟩ := hu
    have hleft : (vs.filter (fun v => !(v.user_id == u && v.entity_type == ty &&
        v.entity_id == eid))).filter (fun v => v.user_id == u &&
        v.entity_type == ty && v.entity_id == eid) = [] := by
      refine List.filter_eq_nil_iff.mpr ?_
      intro v hv
      have := (List.mem_filter.mp hv).2
      simp only [Bool.not_eq_true'] at this
      simp [this]
    rw [hleft]
    simp
  · have hright : ([(⟨u, ty, eid, d⟩ : Vote)].filter (fun v => v.user_id == u' &&
        v.entity_type == ty' && v.entity_id == eid')) = [] := by
      simp only [List.filter, hnew]
    rw [hright, List.append_nil]
    calc ((vs.filter (fun v => !(v.user_id == u && v.entity_type == ty &&
            v.entity_id == eid))).filter (fun v => v.user_id == u' &&
            v.entity_type == ty' && v.entity_id == eid')).length
        ≤ (vs.filter (fun v => v.user_id == u' && v.entity_type == ty' &&
            v.entity_id == eid')).length :=
          ((List.filter_sublist vs).filter _).length_le
      _ ≤ 1 := h u' ty' eid'

/-- Claim C1: for every successful castVote on an entity (post or
comment), immediately after the operation completes the entity's cached
score field equals the count of 'up' votes minus the count of 'down'
votes over all vote rows for that entity (and the returned new_score is
that same value). -/
theorem castVote_score_postcondition :
    (∀ (user : Option String) (vt postId : String) (now : Int)
       (st : WorkerState) (n : Int),
       (handleVotePost user vt postId now st).1 = VoteOutcome.success n →
       (n = tallyScore (handleVotePost user vt postId now st).2.votes
           "post" postId ∧
        ∀ p ∈ (handleVotePost user vt postId now st).2.posts, p.id = postId →
          p.score = tallyScore (handleVotePost user vt postId now st).2.votes
            "post" postId)) ∧
    (∀ (user : Option String) (vt commentId : String) (now : Int)
       (st : WorkerState) (n : Int),
       (handleVoteComment user vt commentId now st).1 = VoteOutcome.success n →
       (n = tallyScore (handleVoteComment user vt commentId now st).2.votes
           "comment" commentId ∧
        ∀ c ∈ (handleVoteComment user vt commentId now st).2.comments,
          c.id = commentId →
          c.score = tallyScore
            (handleVoteComment user vt commentId now st).2.votes
            "comment" commentId)) := by
  constructor
  · intro user vt postId now st n hsucc
    rcases votePost_shape user vt postId now st with h | h | h | h |
      ⟨uid, _, _, h⟩
    · simp [h] at hsucc
    · simp [h] at hsucc
    · simp [h] at hsucc
    · simp [h] at hsucc
    · rw [h] at hsucc
      simp only at hsucc
      rw [VoteOutcome.success.injEq] at hsucc
      rw [h]
      refine ⟨hsucc.symm, ?_⟩
      intro p hp hpid
      obtain ⟨q, hq, rfl⟩ := List.mem_map.mp hp
      by_cases hid : (q.id == postId) = true
      · simp only [hid, if_true]
      · rw [if_neg (by simp [hid])] at hpid ⊢
        exact absurd (beq_iff_eq.mpr hpid) hid
  · intro user vt commentId now st n hsucc
    rcases voteComment_shape user vt commentId now st with h | h | h | h |
      ⟨uid, _, _, h⟩
    · simp [h] at hsucc
    · simp [h] at hsucc
    · simp [h] at hsucc
    · simp [h] at hsucc
    · rw [h] at hsucc
      simp only at hsucc
      rw [VoteOutcome.success.injEq] at hsucc
      rw [h]
      refine ⟨hsucc.symm, ?_⟩
      intro c hc hcid
      obtain ⟨q, hq, rfl⟩ := List.mem_map.mp hc
      by_cases hid : (q.id == commentId) = true
      · simp only [hid, if_true]
      · rw [if_neg (by simp [hid])] at hcid ⊢
        exact absurd (beq_iff_eq.mpr hcid) hid

/-- Witness for castVote_score_postcondition: a first up-vote by u1 on
post p1 (score 0) succeeds with new score 1, and the stored row's score
is the up-minus-down tally of the resulting ledger. -/
theorem castVote_score_postcondition_witness :
    (handleVotePost (some "u1") "up" "p1" 0
        ⟨[], [⟨"p1", "link", "u9", 0, 0, 0, 0⟩], [], []⟩).1 =
      VoteOutcome.success 1 ∧
    (⟨"p1", "link", "u9", 1, 0, 0, 0⟩ : PostRow).score =
      tallyScore (handleVotePost (some "u1") "up" "p1" 0
        ⟨[], [⟨"p1", "link", "u9", 0, 0, 0, 0⟩], [], []⟩).2.votes "post" "p1" :=
  ⟨rfl, (castVote_score_postcondition.1 (some "u1") "up" "p1" 0
      ⟨[], [⟨"p1", "link", "u9", 0, 0, 0, 0⟩], [], []⟩ 1 rfl).2
      ⟨"p1", "link", "u9", 1, 0, 0, 0⟩ (by decide) (by decide)⟩

/-- Claim C2: the vote ledger keeps at most one row per (user,
entity-type, entity-id) triple through any castVote, a repeat vote
replaces the previous direction, and only the most recent direction
counts: 'up' then 'down' by u1 on post p1 starting from score 0 ends in
a single 'down' row and score -1. -/
theorem vote_ledger_unique_overwrite :
    (∀ (user : Option String) (vt pid : String) (now : Int)
       (st : WorkerState), atMostOneVote st.votes →
       atMostOneVote (handleVotePost user vt pid now st).2.votes) ∧
    (∀ (user : Option String) (vt cid : String) (now : Int)
       (st : WorkerState), atMostOneVote st.votes →
       atMostOneVote (handleVoteComment user vt cid now st).2.votes) ∧
    ((handleVotePost (some "u1") "down" "p1" 1
        (handleVotePost (some "u1") "up" "p1" 0
          ⟨[], [⟨"p1", "link", "u9", 0, 0, 0, 0⟩], [], []⟩).2).2.votes =
      [⟨"u1", "post", "p1", "down"⟩]) ∧
    ((handleVotePost (some "u1") "down" "p1" 1
        (handleVotePost (some "u1") "up" "p1" 0
          ⟨[], [⟨"p1", "link", "u9", 0, 0, 0, 0⟩], [], []⟩).2).2.posts =
      [⟨"p1", "link", "u9", -1, 0, 0, 0⟩]) := by
  refine ⟨?_, ?_, by decide, by decide⟩
  · intro user vt pid now st hinv
    rcases votePost_shape user vt pid now st with h | h | h | h |
      ⟨uid, _, _, h⟩
    · rw [h]; exact hinv
    · rw [h]; exact hinv
    · rw [h]; exact hinv
    · rw [h]; exact hinv
    · rw [h]; exact atMostOneVote_upsert st.votes uid "post" pid vt hinv
  · intro user vt cid now st hinv
    rcases voteComment_shape user vt cid now st with h | h | h | h |
      ⟨uid, _, _, h⟩
    · rw [h]; exact hinv
    · rw [h]; exact hinv
    · rw [h]; exact hinv
    · rw [h]; exact hinv
    · rw [h]; exact atMostOneVote_upsert st.votes uid "comment" cid vt hinv

/-- Witness for vote_ledger_unique_overwrite: applying the preservation
part to an empty ledger and a concrete up-vote. -/
theorem vote_ledger_unique_overwrite_witness :
    atMostOneVote (handleVotePost (some "u1") "up" "p1" 0
      ⟨[], [⟨"p1", "link", "u9", 0, 0, 0, 0⟩], [], []⟩).2.votes :=
  vote_ledger_unique_overwrite.1 (some "u1") "up" "p1" 0
    ⟨[], [⟨"p1", "link", "u9", 0, 0, 0, 0⟩], [], []⟩
    (fun u ty eid => by simp)

/-- Claim C9: a castVote that fails with a validation, not-found or
rate-limit error leaves every table untouched, and a successful castVote
writes the vote row and the recomputed score together. -/
theorem castVote_atomic :
    (∀ (user : Option String) (vt pid : String) (now : Int)
       (st : WorkerState),
       ((handleVotePost user vt pid now st).1 = VoteOutcome.errInvalid ∨
        (handleVotePost user vt pid now st).1 = VoteOutcome.errNotFound ∨
        (handleVotePost user vt pid now st).1 = VoteOutcome.errRateLimit) →
       (handleVotePost user vt pid now st).2 = st) ∧
    (∀ (uid vt pid : String) (now : Int) (st : WorkerState) (n : Int),
       (handleVotePost (some uid) vt pid now st).1 = VoteOutcome.success n →
       ((⟨uid, "post", pid, vt⟩ : Vote) ∈
          (handleVotePost (some uid) vt pid now st).2.votes ∧
        ∃ p ∈ (handleVotePost (some uid) vt pid now st).2.posts,
          p.id = pid ∧ p.score = n)) ∧
    (∀ (user : Option String) (vt cid : String) (now : Int)
       (st : WorkerState),
       ((handleVoteComment user vt cid now st).1 = VoteOutcome.errInvalid ∨
        (handleVoteComment user vt cid now st).1 = VoteOutcome.errNotFound ∨
        (handleVoteComment user vt cid now st).1 = VoteOutcome.errRateLimit) →
       (handleVoteComment user vt cid now st).2 = st) ∧
    (∀ (uid vt cid : String) (now : Int) (st : WorkerState) (n : Int),
       (handleVoteComment (some uid) vt cid now st).1 = VoteOutcome.success n →
       ((⟨uid, "comment", cid, vt⟩ : Vote) ∈
          (handleVoteComment (some uid) vt cid now st).2.votes ∧
        ∃ c ∈ (handleVoteComment (some uid) vt cid now st).2.comments,
          c.id = cid ∧ c.score = n)) := by
  refine ⟨?_, ?_, ?_, ?_⟩
  · intro user vt pid now st herr
    rcases votePost_shape user vt pid now st with h | h | h | h |
      ⟨uid, _, _, h⟩
    · rw [h]
    · rw [h]
    · rw [h]
    · rw [h]
    · rw [h] at herr
      simp at herr
  · intro uid vt pid now st n hsucc
    rcases votePost_shape (some uid) vt pid now st with h | h | h | h |
      ⟨uid', huid, ⟨q, hq, hqid⟩, h⟩
    · simp [h] at hsucc
    · simp [h] at hsucc
    · simp [h] at hsucc
    · simp [h] at hsucc
    · obtain rfl : uid' = uid := by
        have := huid
        simp only [Option.some.injEq] at this
        exact this.symm
      rw [h] at hsucc
      simp only at hsucc
      rw [VoteOutcome.success.injEq] at hsucc
      rw [h]
      constructor
      · exact List.mem_append_right _ (List.mem_singleton.mpr rfl)
      · refine ⟨{ q with score := (tallyScore
            (upsertVote st.votes uid' "post" pid vt) "post" pid) },
          List.mem_map.mpr ⟨q, hq, ?_⟩, hqid, hsucc⟩
        rw [if_pos (beq_iff_eq.mpr hqid)]
  · intro user vt cid now st herr
    rcases voteComment_shape user vt cid now st with h | h | h | h |
      ⟨uid, _, _, h⟩
    · rw [h]
    · rw [h]
    · rw [h]
    · rw [h]
    · rw [h] at herr
      simp at herr
  · intro uid vt cid now st n hsucc
    rcases voteComment_shape (some uid) vt cid now st with h | h | h | h |
      ⟨uid', huid, ⟨q, hq, hqid⟩, h⟩
    · simp [h] at hsucc
    · simp [h] at hsucc
    · simp [h] at hsucc
    · simp [h] at hsucc
    · obtain rfl : uid' = uid := by
        have := huid
        simp only [Option.some.injEq] at this
        exact this.symm
      rw [h] at hsucc
      simp only at hsucc
      rw [VoteOutcome.success.injEq] at hsucc
      rw [h]
      constructor
      · exact List.mem_append_right _ (List.mem_singleton.mpr rfl)
      · refine ⟨{ q with score := (tallyScore
            (upsertVote st.votes uid' "comment" cid vt) "comment" cid) },
          List.mem_map.mpr ⟨q, hq, ?_⟩, hqid, hsucc⟩
        rw [if_pos (beq_iff_eq.mpr hqid)]

/-- Witness for castVote_atomic: a vote with an invalid direction leaves
the state unchanged, and a successful up-vote writes row and score
together. -/
theorem castVote_atomic_witness :
    (handleVotePost (some "u1") "sideways" "p1" 0
        ⟨[], [⟨"p1", "link", "u9", 0, 0, 0, 0⟩], [], []⟩).2 =
      ⟨[], [⟨"p1", "link", "u9", 0, 0, 0, 0⟩], [], []⟩ ∧
    ((⟨"u1", "post", "p1", "up"⟩ : Vote) ∈
        (handleVotePost (some "u1") "up" "p1" 0
          ⟨[], [⟨"p1", "link", "u9", 0, 0, 0, 0⟩], [], []⟩).2.votes ∧
      ∃ p ∈ (handleVotePost (some "u1") "up" "p1" 0
          ⟨[], [⟨"p1", "link", "u9", 0, 0, 0, 0⟩], [], []⟩).2.posts,
        p.id = "p1" ∧ p.score = 1) :=
  ⟨castVote_atomic.1 (some "u1") "sideways" "p1" 0
      ⟨[], [⟨"p1", "link", "u9", 0, 0, 0, 0⟩], [], []⟩ (Or.inl rfl),
   castVote_atomic.2.1 "u1" "up" "p1" 0
      ⟨[], [⟨"p1", "link", "u9", 0, 0, 0, 0⟩], [], []⟩ 1 rfl⟩

/-- Claim C10: clicks are tracked only for link posts.  A click on a
post id with no link-typed row (a self post or a nonexistent id) answers
not-found and leaves the table unchanged; a click on an existing link
post succeeds, and row by row the result keeps every field except that
the clicked id's clicks grow by exactly 1. -/
theorem trackClick_spec :
    (∀ (postId : String) (posts : List PostRow),
       (∀ p ∈ posts, ¬(p.id = postId ∧ p.type = "link")) →
       handleTrackClick postId posts = (ClickOutcome.errNotFound, posts)) ∧
    (∀ (postId : String) (posts : List PostRow) (q : PostRow),
       q ∈ posts → q.id = postId → q.type = "link" →
       (handleTrackClick postId posts).1 = ClickOutcome.success) ∧
    (∀ (postId : String) (posts : List PostRow),
       ((handleTrackClick postId posts).2.length = posts.length ∧
        ∀ (i : Nat) (hi : i < posts.length)
          (hi2 : i < (handleTrackClick postId posts).2.length),
          ((handleTrackClick postId posts).2[i].id = posts[i].id ∧
           (handleTrackClick postId posts).2[i].type = posts[i].type ∧
           (handleTrackClick postId posts).2[i].author_id = posts[i].author_id ∧
           (handleTrackClick postId posts).2[i].score = posts[i].score ∧
           (handleTrackClick postId posts).2[i].comments_count =
             posts[i].comments_count ∧
           (handleTrackClick postId posts).2[i].created_at =
             posts[i].created_at ∧
           (handleTrackClick postId posts).2[i].clicks = posts[i].clicks +
             (if (handleTrackClick postId posts).1 = ClickOutcome.success ∧
                 posts[i].id = postId then 1 else 0)))) := by
  refine ⟨?_, ?_, ?_⟩
  · intro postId posts hnone
    have hfind : posts.find? (fun p => p.id == postId && p.type == "link")
        = none := by
      rw [List.find?_eq_none]
      intro p hp
      have := hnone p hp
      simp only [Bool.and_eq_true, beq_iff_eq]
      intro hcontra
      exact this ⟨hcontra.1, hcontra.2⟩
    simp [handleTrackClick, hfind]
  · intro postId posts q hq hqid hqty
    cases hfind : posts.find? (fun p => p.id == postId && p.type == "link") with
    | none =>
      rw [List.find?_eq_none] at hfind
      exact absurd (by simp [hqid, hqty]) (hfind q hq)
    | some r => simp [handleTrackClick, hfind]
  · intro postId posts
    cases hfind : posts.find? (fun p => p.id == postId && p.type == "link") with
    | none =>
      constructor
      · simp [handleTrackClick, hfind]
      · intro i hi hi2
        simp [handleTrackClick, hfind]
    | some r =>
      constructor
      · simp [handleTrackClick, hfind]
      · intro i hi hi2
        have hgoal : (handleTrackClick postId posts).2 = posts.map (fun p =>
            if p.id == postId then { p with clicks := p.clicks + 1 } else p) := by
          simp [handleTrackClick, hfind]
        have h1 : (handleTrackClick postId posts).1 = ClickOutcome.success := by
          simp [handleTrackClick, hfind]
        simp only [hgoal, h1, List.getElem_map]
        by_cases hid : (posts[i].id == postId) = true
        · rw [if_pos hid]
          have : posts[i].id = postId := beq_iff_eq.mp hid
          simp [this]
        · rw [if_neg hid]
          have : ¬(posts[i].id = postId) := fun hc => hid (beq_iff_eq.mpr hc)
          simp [this]

/-- Witness for trackClick_spec: a click on the self post p2 is rejected
and changes nothing; a click on the link post p1 succeeds, and at index 0
only the clicks field grows, from 3 to 4. -/
theorem trackClick_spec_witness :
    (handleTrackClick "p2" [⟨"p1", "link", "u1", 1, 3, 0, 5⟩,
        ⟨"p2", "self", "u1", 0, 0, 0, 6⟩] =
      (ClickOutcome.errNotFound, [⟨"p1", "link", "u1", 1, 3, 0, 5⟩,
        ⟨"p2", "self", "u1", 0, 0, 0, 6⟩])) ∧
    (handleTrackClick "p1" [⟨"p1", "link", "u1", 1, 3, 0, 5⟩,
        ⟨"p2", "self", "u1", 0, 0, 0, 6⟩]).1 = ClickOutcome.success ∧
    (handleTrackClick "p1" [⟨"p1", "link", "u1", 1, 3, 0, 5⟩,
        ⟨"p2", "self", "u1", 0, 0, 0, 6⟩]).2[0].clicks =
      (3 : Int) + (if (handleTrackClick "p1" [⟨"p1", "link", "u1", 1, 3, 0, 5⟩,
        ⟨"p2", "self", "u1", 0, 0, 0, 6⟩]).1 = ClickOutcome.success ∧
        ("p1" : String) = "p1" then 1 else 0) :=
  ⟨trackClick_spec.1 "p2" [⟨"p1", "link", "u1", 1, 3, 0, 5⟩,
      ⟨"p2", "self", "u1", 0, 0, 0, 6⟩] (by decide),
   trackClick_spec.2.1 "p1" [⟨"p1", "link", "u1", 1, 3, 0, 5⟩,
      ⟨"p2", "self", "u1", 0, 0, 0, 6⟩] ⟨"p1", "link", "u1", 1, 3, 0, 5⟩
      (by decide) rfl rfl,
   ((trackClick_spec.2.2 "p1" [⟨"p1", "link", "u1", 1, 3, 0, 5⟩,
      ⟨"p2", "self", "u1", 0, 0, 0, 6⟩]).2 0 (by decide) (by decide)).2.2.2.2.2.2⟩

/-- Claim C8: contrary to the documented 3-per-hour-per-email limit,
handleLogin never consults a rate limiter: four magic-link requests for
the same email within one hour (here spread over 30 minutes) all
succeed, and all four tokens are inserted. -/
theorem login_no_rate_limit :
    (runLogins "user@example.com" []
        [("t1", 0), ("t2", 600000), ("t3", 1200000), ("t4", 1799999)]).1 =
      [true, true, true, true] ∧
    (1799999 : Int) - 0 < 3600000 ∧
    (runLogins "user@example.com" []
        [("t1", 0), ("t2", 600000), ("t3", 1200000), ("t4", 1799999)]).2.length
      = 4 :=
  ⟨rfl, by norm_num, rfl⟩

/-- On a cache holding exactly the checked key, a read before expiry sees
the stored counter. -/
lemma kvGet_singleton (key : String) (k : Nat) (e now : Int) :
    kvGet [⟨key, k, e⟩] key now = if now < e then some k else none := by
  simp [kvGet, List.find?]

/-- Replacing the only entry of a singleton cache. -/
lemma kvPut_singleton (key : String) (k c : Nat) (e ttl now : Int) :
    kvPut [⟨key, k, e⟩] key c ttl now = [⟨key, c, now + ttl⟩] := by
  simp [kvPut, List.filter]

/-- Core behaviour of repeated checkRateLimit calls on one key while the
stored counter stays live: starting from a counter k whose expiry covers
the whole call interval, the first limit - k calls succeed and every
later call is refused (each refusal leaves the counter untouched). -/
lemma runRateLimit_window (key : String) (limit : Nat) (window t0 : Int) :
    ∀ (ts : List Int) (k : Nat) (e : Int), k ≤ limit → t0 + window ≤ e →
      (∀ t ∈ ts, t0 ≤ t ∧ t < t0 + window) →
      (runRateLimit key limit window [⟨key, k, e⟩] ts).1 =
        List.replicate (min ts.length (limit - k)) true ++
        List.replicate (ts.length - (limit - k)) false := by
  intro ts
  induction ts with
  | nil => intro k e _ _ _; simp [runRateLimit]
  | cons t ts ih =>
    intro k e hk he hts
    have ht := hts t (List.mem_cons_self t ts)
    have halive : t < e := lt_of_lt_of_le ht.2 he
    by_cases hcap : limit ≤ k
    · have hstep : checkRateLimit [⟨key, k, e⟩] key limit window t =
          (false, [⟨key, k, e⟩]) := by
        simp [checkRateLimit, kvGet_singleton, halive, hcap]
      have htail := ih k e hk he (fun u hu => hts u (List.mem_cons_of_mem t hu))
      simp only [runRateLimit, hstep, htail, List.length_cons]
      rw [show limit - k = 0 from by omega]
      simp [List.replicate_succ]
    · push_neg at hcap
      have hstep : checkRateLimit [⟨key, k, e⟩] key limit window t =
          (true, [⟨key, k + 1, t + window⟩]) := by
        simp [checkRateLimit, kvGet_singleton, halive, Nat.not_le.mpr hcap,
          kvPut_singleton]
      have htail := ih (k + 1) (t + window) hcap
        (by exact add_le_add_right ht.1 window)
        (fun u hu => hts u (List.mem_cons_of_mem t hu))
      simp only [runRateLimit, hstep, htail, List.length_cons]
      rw [show min (ts.length + 1) (limit - k) = min ts.length (limit - (k + 1)) + 1
          from by omega,
        show ts.length + 1 - (limit - k) = ts.length - (limit - (k + 1)) from by omega,
        List.replicate_succ true (min ts.length (limit - (k + 1))),
        List.cons_append]

/-- Claim C5 (amended): starting from an empty counter, the first
limit calls whose times all fall inside one window interval succeed and
the (limit+1)-th such call is refused; the counter set by a successful
call at time now expires at now + window, so a counter whose expiry has
passed no longer blocks anything: any call at or after the expiry of the
stored counter succeeds.  The counter therefore lapses window seconds
after the last successful increment, not at the end of the fixed window
that began with the first call. -/
theorem rateLimit_window_behavior :
    (∀ (key : String) (limit : Nat) (window t0 t1 : Int) (ts : List Int),
       1 ≤ limit → ts.length = limit →
       t0 ≤ t1 → t1 < t0 + window →
       (∀ t ∈ ts, t0 ≤ t ∧ t < t0 + window) →
       (runRateLimit key limit window [] (t1 :: ts)).1 =
         List.replicate limit true ++ [false]) ∧
    (∀ (key : String) (k : Nat) (e : Int) (limit : Nat) (window now : Int),
       1 ≤ limit → e ≤ now →
       (checkRateLimit [⟨key, k, e⟩] key limit window now).1 = true) ∧
    (∀ (cache cache' : List CacheEntry) (key : String) (limit : Nat)
       (window now : Int),
       checkRateLimit cache key limit window now = (true, cache') →
       ∀ t, now + window ≤ t → kvGet cache' key t = none) := by
  refine ⟨?_, ?_, ?_⟩
  · intro key limit window t0 t1 ts hlim hlen ht01 ht1 hts
    have hstep : checkRateLimit [] key limit window t1 =
        (true, [⟨key, 1, t1 + window⟩]) := by
      simp [checkRateLimit, kvGet, kvPut, Nat.not_le.mpr hlim]
    have htail := runRateLimit_window key limit window t0 ts 1 (t1 + window)
      hlim (by exact add_le_add_right ht01 window) hts
    simp only [runRateLimit, hstep, htail, hlen]
    rw [show min limit (limit - 1) = limit - 1 from by omega,
      show limit - (limit - 1) = 1 from by omega]
    have hrep : List.replicate limit true =
        true :: List.replicate (limit - 1) true := by
      conv_lhs => rw [show limit = (limit - 1) + 1 from by omega]
      rw [List.replicate_succ]
    rw [hrep, List.cons_append]
    simp
  · intro key k e limit window now hlim hexp
    have : kvGet [⟨key, k, e⟩] key now = none := by
      rw [kvGet_singleton]
      rw [if_neg (by omega)]
    simp [checkRateLimit, this, Nat.not_le.mpr hlim]
  · intro cache cache' key limit window now hcall t ht
    unfold checkRateLimit at hcall
    by_cases hcap : limit ≤ (kvGet cache key now).getD 0
    · simp only [hcap, if_true] at hcall
      exact absurd (congrArg Prod.fst hcall) (by simp)
    · simp only [hcap, if_false] at hcall
      have hc : cache' = kvPut cache key ((kvGet cache key now).getD 0 + 1)
          window now := (congrArg Prod.snd hcall).symm
      subst hc
      unfold kvPut kvGet
      have hleft : (cache.filter (fun e => !(e.key == key))).find?
          (fun e => e.key == key) = none := by
        rw [List.find?_eq_none]
        intro x hx
        have := (List.mem_filter.mp hx).2
        simp only [Bool.not_eq_true'] at this
        simp [this]
      rw [List.find?_append, hleft]
      simp only [Option.none_or]
      rw [List.find?_cons_of_pos _ (by simp)]
      have hlate : ¬(t < now + window) := by omega
      simp [hlate]

/-- Witness for rateLimit_window_behavior: limit 1 and window 100 with
calls at 0 and 50 give one success then a refusal; an expired counter at
count 1 no longer blocks; the counter written by a successful call at
time 0 with window 100 is gone at time 150. -/
theorem rateLimit_window_behavior_witness :
    (runRateLimit "k" 1 100 [] [0, 50]).1 =
      List.replicate 1 true ++ [false] ∧
    (checkRateLimit [⟨"k", 1, 100⟩] "k" 1 100 100).1 = true ∧
    kvGet [⟨"k", 1, 100⟩] "k" 150 = none :=
  ⟨rateLimit_window_behavior.1 "k" 1 100 0 0 [50] (by norm_num) rfl
      (by norm_num) (by norm_num) (by
        intro t htmem
        simp only [List.mem_singleton] at htmem
        subst htmem
        norm_num),
   rateLimit_window_behavior.2.1 "k" 1 100 1 100 100 (by norm_num)
      (by norm_num),
   rateLimit_window_behavior.2.2 [] [⟨"k", 1, 100⟩] "k" 1 100 0 rfl 150
      (by norm_num)⟩

/-- Claim C5 counterexample: with limit 2 and window 100, successful
calls at times 0 and 90 set the counter's expiry to 190, so the call at
time 110 — the first action of the next window, the window [0,100)
having ended — is still refused, contradicting expiry at window end. -/
theorem rateLimit_next_window_rejected_cex :
    (runRateLimit "k" 2 100 [] [0, 90, 110]).1 = [true, true, false] ∧
    (runRateLimit "k" 2 100 [] [0, 90, 110]).2 = [⟨"k", 2, 190⟩] ∧
    (0 : Int) + 100 ≤ 110 :=
  ⟨rfl, rfl, by norm_num⟩

/-- Claim C6 (amended): holding score and comments_count fixed, the
hotness formula is non-increasing in age_hours whenever the numerator
score + 0.2 * comments_count is nonnegative; net-downvoted posts with a
negative numerator instead rise toward 0 as they age. -/
theorem hotness_monotone_nonneg (s c a₁ a₂ : ℝ) (hnum : 0 ≤ s + 0.2 * c)
    (ha1 : 0 ≤ a₁) (h12 : a₁ ≤ a₂) :
    hotnessFormula s c a₂ ≤ hotnessFormula s c a₁ := by
  have hb1 : (0 : ℝ) < a₁ + 2 := by linarith
  have hb2 : (0 : ℝ) < a₂ + 2 := by linarith
  have hpow : (a₁ + 2) ^ (1.5 : ℝ) ≤ (a₂ + 2) ^ (1.5 : ℝ) :=
    Real.rpow_le_rpow (le_of_lt hb1) (by linarith) (by norm_num)
  have hp1 : (0 : ℝ) < (a₁ + 2) ^ (1.5 : ℝ) := Real.rpow_pos_of_pos hb1 _
  have hp2 : (0 : ℝ) < (a₂ + 2) ^ (1.5 : ℝ) := Real.rpow_pos_of_pos hb2 _
  unfold hotnessFormula
  rw [div_le_div_iff₀ hp2 hp1]
  exact mul_le_mul_of_nonneg_left hpow hnum

/-- Witness for hotness_monotone_nonneg at score 10, comments 5, ages 1
and 2 hours. -/
theorem hotness_monotone_nonneg_witness :
    (0 : ℝ) ≤ 10 + 0.2 * 5 ∧ (0 : ℝ) ≤ 1 ∧ (1 : ℝ) ≤ 2 ∧
    hotnessFormula 10 5 2 ≤ hotnessFormula 10 5 1 :=
  ⟨by norm_num, by norm_num, by norm_num,
   hotness_monotone_nonneg 10 5 1 2 (by norm_num) (by norm_num) (by norm_num)⟩

/-- Claim C6 counterexample: a post with score -5 and no comments has a
strictly larger hotness at age 2 hours than at age 1 hour, so hotness is
not non-increasing in age for every eligible post. -/
theorem hotness_not_monotone_cex :
    hotnessFormula (-5) 0 1 < hotnessFormula (-5) 0 2 := by
  have e1 : hotnessFormula (-5) 0 1 = -5 / (3 : ℝ) ^ (1.5 : ℝ) := by
    unfold hotnessFormula
    norm_num
  have e2 : hotnessFormula (-5) 0 2 = -5 / (4 : ℝ) ^ (1.5 : ℝ) := by
    unfold hotnessFormula
    norm_num
  have h34 : (3 : ℝ) ^ (1.5 : ℝ) < (4 : ℝ) ^ (1.5 : ℝ) :=
    Real.rpow_lt_rpow (by norm_num) (by norm_num) (by norm_num)
  have h3 : (0 : ℝ) < (3 : ℝ) ^ (1.5 : ℝ) :=
    Real.rpow_pos_of_pos (by norm_num) _
  have h4 : (0 : ℝ) < (4 : ℝ) ^ (1.5 : ℝ) :=
    Real.rpow_pos_of_pos (by norm_num) _
  rw [e1, e2, div_lt_div_iff₀ h3 h4]
  nlinarith [h34, h3, h4]

/-- Claim C3 (code bug): a post stored one hour ago (created_at in
unixepoch seconds, per the schema default used by handleSubmitPost) with
score 10 and 5 comments is skipped by the recalculator, because the SQL
filter compares the seconds-valued created_at against a cutoff computed
from Date.now() in milliseconds; its hotness stays 0 instead of becoming
the claimed 11 / 3 ^ 1.5 which is strictly positive. -/
theorem updateHotness_skips_recent_post :
    (1760000000000 : Int) / 1000 - 1759996400 = 3600 ∧
    (3600 : Int) < 7 * 24 * 60 * 60 ∧
    handleUpdateHotness 1760000000000 [⟨10, 5, 1759996400, 0⟩] =
      [⟨10, 5, 1759996400, 0⟩] ∧
    (0 : ℝ) < 11 / (3 : ℝ) ^ (1.5 : ℝ) := by
  refine ⟨by norm_num, by norm_num, ?_, ?_⟩
  · unfold handleUpdateHotness
    rw [List.map_cons, List.map_nil]
    rw [if_neg (by norm_num)]
  · exact div_pos (by norm_num) (Real.rpow_pos_of_pos (by norm_num) _)

/-- Claim C7: no author returned by the leaderboard, for any period,
limit and offset, has total_score ≤ 0: the HAVING-style filter keeps only
strictly positive totals before ordering and pagination. -/
theorem leaderboard_positive_scores (period : String) (limit offset : Nat)
    (now : Int) (users : List UserRow) (posts : List PostRow)
    (comments : List CommentRow) (votes : List Vote) (a : AuthorStat)
    (ha : a ∈ handleGetLeaderboard period limit offset now users posts
      comments votes) : 0 < a.total_score := by
  unfold handleGetLeaderboard at ha
  have h1 := List.mem_of_mem_take ha
  have h2 := List.mem_of_mem_drop h1
  rw [List.mem_insertionSort] at h2
  have h3 := (List.mem_filter.mp h2).2
  simpa using h3

/-- Witness for leaderboard_positive_scores: a total-period leaderboard
over one author with one upvoted post returns that author, whose total
score is positive. -/
theorem leaderboard_positive_scores_witness :
    ((⟨"u1", 1, 0, 0, 1⟩ : AuthorStat) ∈ handleGetLeaderboard "total" 50 0
      1760000000000 [⟨"u1"⟩] [⟨"p1", "link", "u1", 1, 0, 0, 1759996400⟩] []
      [⟨"u2", "post", "p1", "up"⟩]) ∧
    (0 : ℚ) < (⟨"u1", 1, 0, 0, 1⟩ : AuthorStat).total_score := by
  have hmem : (⟨"u1", 1, 0, 0, 1⟩ : AuthorStat) ∈ handleGetLeaderboard
      "total" 50 0 1760000000000 [⟨"u1"⟩]
      [⟨"p1", "link", "u1", 1, 0, 0, 1759996400⟩] []
      [⟨"u2", "post", "p1", "up"⟩] := by
    rw [show handleGetLeaderboard "total" 50 0 1760000000000 [⟨"u1"⟩]
        [⟨"p1", "link", "u1", 1, 0, 0, 1759996400⟩] []
        [⟨"u2", "post", "p1", "up"⟩] = [⟨"u1", 1, 0, 0, 1⟩] from by
      simp [handleGetLeaderboard, authorStatOf, postUpvotesOf,
        commentUpvotesOf, totalClicksOf, postWindowOk, commentWindowOk,
        countUp, List.insertionSort, List.orderedInsert]]
    exact List.mem_singleton.mpr rfl
  exact ⟨hmem, leaderboard_positive_scores "total" 50 0 1760000000000
    [⟨"u1"⟩] [⟨"p1", "link", "u1", 1, 0, 0, 1759996400⟩] []
    [⟨"u2", "post", "p1", "up"⟩] ⟨"u1", 1, 0, 0, 1⟩ hmem⟩

/-- Claim C4 (code bug): in the weekly leaderboard the 7-day cutoff is
computed from Date.now() in milliseconds but compared with the
seconds-valued created_at column, so the up-vote on a post created one
hour before now is not counted: its author is dropped entirely and the
weekly leaderboard comes back empty, although the claim says votes on
content created within the last 7 days count. -/
theorem leaderboard_weekly_excludes_recent_post :
    (1760000000000 : Int) / 1000 - 1759996400 = 3600 ∧
    (3600 : Int) < 7 * 24 * 60 * 60 ∧
    countUp [⟨"u2", "post", "p1", "up"⟩] "post" "p1" = 1 ∧
    handleGetLeaderboard "weekly" 50 0 1760000000000 [⟨"u1"⟩]
      [⟨"p1", "link", "u1", 1, 0, 0, 1759996400⟩] []
      [⟨"u2", "post", "p1", "up"⟩] = [] := by
  refine ⟨by norm_num, by norm_num, by rfl, ?_⟩
  simp [handleGetLeaderboard, authorStatOf, postUpvotesOf, commentUpvotesOf,
    totalClicksOf, postWindowOk, commentWindowOk, countUp, List.insertionSort]

end Firehose
